import Mathlib

/-!
# Checkout form glue script (`static/js/payment_test_form.js`)

A shallow embedding of the script that wires a checkout form to the hosted
fields SDK.  The script is three nested callbacks and one event listener; each
of them is a function on an explicit state made of

* the part of the DOM the script touches,
* the submit listeners registered on the form,
* the SDK calls that were issued and still await their callback,
* the trace of effects performed so far (SDK calls, DOM writes, log entries).

An uncaught `TypeError` (a property read on `null`/`undefined`, a call of a
non-function) ends the running callback; the writes made before it persist and
the trace records it.
-/

namespace PaymentTestForm

/-! ## Values -/

/-- JavaScript values as far as the script observes them: it tests the
truthiness of an error argument, reads the property `nonce` of a payload, calls
the method `tokenize` of a hosted fields instance and otherwise only passes
values along.  An object carries an identity, the value of its `nonce` property
(`undefined` when it has none) and whether it has a callable `tokenize`.
Numbers are left out of the embedding. -/
inductive JSVal where
  | undefined
  | null
  | bool (b : Bool)
  | str (s : String)
  | obj (id : Nat) (nonce : JSVal) (tokenize : Bool)
  deriving DecidableEq

namespace JSVal

/-- The truthiness test of `if (x)`. -/
def truthy : JSVal → Bool
  | undefined => false
  | null => false
  | bool b => b
  | str s => s != ""
  | obj _ _ _ => true

/-- The property read `x.nonce`: `none` stands for the `TypeError` thrown on
`undefined` and `null`; a primitive has no such property. -/
def getNonce : JSVal → Option JSVal
  | undefined => none
  | null => none
  | bool _ => some undefined
  | str _ => some undefined
  | obj _ n _ => some n

/-- Whether `x.tokenize(cb)` is a call of a function; otherwise the call throws
a `TypeError`. -/
def hasTokenize : JSVal → Bool
  | obj _ _ t => t
  | _ => false

/-- Conversion of an assigned value to the string an input element stores in
`value` (the attribute maps `null` to the empty string). -/
def toDOMString : JSVal → String
  | undefined => "undefined"
  | null => ""
  | bool true => "true"
  | bool false => "false"
  | str s => s
  | obj _ _ _ => "[object Object]"

end JSVal

/-! ## Configurations passed to the SDK -/

/-- Argument of `braintree.client.create`. -/
structure ClientConfig where
  authorization : JSVal
  deriving DecidableEq

/-- One entry of `fields` in the hosted fields configuration. -/
structure FieldConfig where
  selector : String
  placeholder : String
  deriving DecidableEq

/-- Argument of `braintree.hostedFields.create`; object literals are kept as
key/value lists in source order. -/
structure HostedFieldsConfig where
  client : JSVal
  styles : List (String × List (String × String))
  fields : List (String × FieldConfig)
  deriving DecidableEq

/-- The object literal of lines 13-40, with `clientInstance` as its client. -/
def hostedFieldsConfig (clientInstance : JSVal) : HostedFieldsConfig :=
  { client := clientInstance
    styles :=
      [ ("input", [("font-size", "14pt")]),
        ("input.invalid", [("color", "red")]),
        ("input.valid", [("color", "green")]) ]
    fields :=
      [ ("number", { selector := "#card-number", placeholder := "4111 1111 1111 1111" }),
        ("cvv", { selector := "#cvv", placeholder := "123" }),
        ("expirationDate", { selector := "#expiration-date", placeholder := "10/2019" }) ] }

/-! ## Effects, state -/

/-- Observable effects of the script, in the order they happen. -/
inductive Effect where
  | clientCreate (cfg : ClientConfig)
  | hostedFieldsCreate (cfg : HostedFieldsConfig)
  | log (v : JSVal)
  | removeAttribute (name : String)
  | addEventListener (type : String) (useCapture : Bool)
  | preventDefault (event : Nat)
  | tokenize (inst : JSVal)
  | setValue (selector : String) (v : String)
  | formSubmit
  | typeError
  deriving DecidableEq

/-- Kinds of SDK call that await a callback. -/
inductive SdkCall where
  | clientCreate
  | hostedFieldsCreate
  | tokenize
  deriving DecidableEq

/-- The elements the script looks up.  `submit` is `none` when nothing matches
`input[type="submit"]`, otherwise it tells whether the control carries the
attribute `disabled`; `form` tells whether `#checkout-form` exists;
`nonceInput` is the value of `input[name="payment-method-nonce"]`, `none` when
there is no such element. -/
structure Dom where
  submit : Option Bool
  form : Bool
  nonceInput : Option String
  deriving DecidableEq

/-- State of the page as far as the script is concerned.  A listener is
represented by the hosted fields instance its closure captured. -/
structure State where
  dom : Dom
  listeners : List JSVal
  pending : List SdkCall
  trace : List Effect
  deriving DecidableEq

/-- Append one effect to the trace. -/
def State.emit (s : State) (e : Effect) : State :=
  { s with trace := s.trace ++ [e] }

/-- Selector of the hidden field (line 63). -/
def nonceSelector : String := "input[name=\"payment-method-nonce\"]"

/-! ## The callbacks -/

/-- Callback of `hostedFieldsInstance.tokenize` (lines 52-66). -/
def tokenizeCallback (tokenizeErr payload : JSVal) (s : State) : State :=
  if tokenizeErr.truthy then
    (s.emit (.log (.str "tokenizeErr"))).emit (.log tokenizeErr)
  else
    match s.dom.nonceInput with
    | none => s.emit .typeError
    | some _ =>
      match payload.getNonce with
      | none => s.emit .typeError
      | some v =>
        let s1 : State :=
          ({ s with dom := { s.dom with nonceInput := some v.toDOMString } }).emit
            (.setValue nonceSelector v.toDOMString)
        let s2 := s1.emit (.log (.str "submitting form"))
        if s2.dom.form then s2.emit .formSubmit else s2.emit .typeError

/-- The submit listener (lines 49-67) with the instance it captured. -/
def submitListener (hostedFieldsInstance : JSVal) (event : Nat) (s : State) : State :=
  let s1 := s.emit (.preventDefault event)
  if hostedFieldsInstance.hasTokenize then
    { s1.emit (.tokenize hostedFieldsInstance) with pending := s1.pending ++ [.tokenize] }
  else
    s1.emit .typeError

/-- Callback of `braintree.hostedFields.create` (lines 40-68). -/
def hostedFieldsCallback (hostedFieldsErr hostedFieldsInstance : JSVal) (s : State) : State :=
  if hostedFieldsErr.truthy then
    (s.emit (.log (.str "hostedFieldsErr"))).emit (.log hostedFieldsErr)
  else
    let s1 := s.emit (.log (.str "Enabling submit btn"))
    match s1.dom.submit with
    | none => s1.emit .typeError
    | some _ =>
      let s2 : State :=
        ({ s1 with dom := { s1.dom with submit := some false } }).emit
          (.removeAttribute "disabled")
      if s2.dom.form then
        { s2.emit (.addEventListener "submit" false) with
          listeners := s2.listeners ++ [hostedFieldsInstance] }
      else
        s2.emit .typeError

/-- Callback of `braintree.client.create` (lines 6-69). -/
def clientCallback (clientErr clientInstance : JSVal) (s : State) : State :=
  if clientErr.truthy then
    s.emit (.log clientErr)
  else
    { s.emit (.hostedFieldsCreate (hostedFieldsConfig clientInstance)) with
      pending := s.pending ++ [.hostedFieldsCreate] }

/-- The top level of the script (lines 1-6): both lookups, then the call of
`braintree.client.create` with `token` as authorization.  The globals
`braintree` and `token` are taken to be defined when the script runs. -/
def main (dom : Dom) (token : JSVal) : State :=
  { dom := dom
    listeners := []
    pending := [.clientCreate]
    trace := [.clientCreate { authorization := token }] }

/-! ## Step relation -/

/-- What the environment does: the SDK delivers a callback, or the browser
dispatches a submit event (identified by a number) on the form. -/
inductive Event where
  | clientCb (err inst : JSVal)
  | hostedFieldsCb (err inst : JSVal)
  | tokenizeCb (err payload : JSVal)
  | submit (event : Nat)
  deriving DecidableEq

/-- A callback can be delivered when a call of its kind awaits it; a submit
event needs the form. -/
def enabled (s : State) : Event → Bool
  | .clientCb _ _ => decide (SdkCall.clientCreate ∈ s.pending)
  | .hostedFieldsCb _ _ => decide (SdkCall.hostedFieldsCreate ∈ s.pending)
  | .tokenizeCb _ _ => decide (SdkCall.tokenize ∈ s.pending)
  | .submit _ => s.dom.form

/-- Run every registered listener on a submit event, in registration order. -/
def dispatchSubmit (event : Nat) : List JSVal → State → State
  | [], s => s
  | l :: ls, s => dispatchSubmit event ls (submitListener l event s)

/-- One step: a delivered callback answers one awaiting call and runs to
completion; a submit event runs the listeners registered at that moment. -/
def step (s : State) : Event → State
  | .clientCb e i => clientCallback e i { s with pending := s.pending.erase .clientCreate }
  | .hostedFieldsCb e i =>
    hostedFieldsCallback e i { s with pending := s.pending.erase .hostedFieldsCreate }
  | .tokenizeCb e p => tokenizeCallback e p { s with pending := s.pending.erase .tokenize }
  | .submit ev => dispatchSubmit ev s.listeners s

/-- Run a sequence of events; `none` when one of them is not enabled. -/
def exec (s : State) : List Event → Option State
  | [] => some s
  | e :: es => if enabled s e then exec (step s e) es else none

/-! ## Auxiliary notions for the proofs -/

/-- The state right after the client callback succeeded with `clientInstance`:
the hosted fields were requested and nothing else happened yet. -/
def fieldsRequested (dom : Dom) (token clientInstance : JSVal) : State :=
  { dom := dom
    listeners := []
    pending := [.hostedFieldsCreate]
    trace := [.clientCreate { authorization := token },
      .hostedFieldsCreate (hostedFieldsConfig clientInstance)] }

/-- Calls of `braintree.client.create`. -/
def Effect.isClientCreate : Effect → Bool
  | .clientCreate _ => true
  | _ => false

/-- Calls of `braintree.hostedFields.create`. -/
def Effect.isHostedFieldsCreate : Effect → Bool
  | .hostedFieldsCreate _ => true
  | _ => false

/-- The effects of the setup phase: the two creation calls, the removal of an
attribute of the submit control and the registration of a listener. -/
def Effect.isSetup : Effect → Bool
  | .clientCreate _ => true
  | .hostedFieldsCreate _ => true
  | .removeAttribute _ => true
  | .addEventListener _ _ => true
  | _ => false

/-- Calls of `preventDefault`, on any event. -/
def Effect.isPreventDefault : Effect → Bool
  | .preventDefault _ => true
  | _ => false

/-- No setup call awaits its callback: every call in flight is a tokenize. -/
def NoSetup (s : State) : Prop := ∀ c ∈ s.pending, c = SdkCall.tokenize

/-- What stays fixed once no setup call is in flight. -/
structure Frame (s t : State) : Prop where
  listeners : t.listeners = s.listeners
  submit : t.dom.submit = s.dom.submit
  form : t.dom.form = s.dom.form
  setup : t.trace.filter Effect.isSetup = s.trace.filter Effect.isSetup
  nonce : s.dom.nonceInput.isSome = true → t.dom.nonceInput.isSome = true
  noSetup : NoSetup t

/-! ## Sample inputs -/

/-- A page that fulfils the DOM contract: a disabled submit control, the form
and an empty hidden field. -/
def sampleDom : Dom := { submit := some true, form := true, nonceInput := some "" }

/-- An authorization token. -/
def sampleToken : JSVal := .str "sandbox_token"

/-- A client instance handed out by the SDK. -/
def sampleClient : JSVal := .obj 1 .undefined false

/-- A hosted fields instance handed out by the SDK. -/
def sampleFields : JSVal := .obj 2 .undefined true

/-- A tokenize payload carrying a nonce. -/
def samplePayload : JSVal := .obj 3 (.str "fake-nonce-123") false

/-- An error object. -/
def sampleError : JSVal := .obj 4 .undefined false

/-- A state in which setup has succeeded and one tokenize call is in flight. -/
def sampleTokenizing : State :=
  { dom := { submit := some false, form := true, nonceInput := some "" }
    listeners := [sampleFields]
    pending := [.tokenize]
    trace := [] }

/-- The run used to illustrate a failed client creation. -/
def clientFailureRun : List Event :=
  [.submit 0] ++ .clientCb sampleError .undefined :: [.submit 1, .submit 2]

/-- The state `clientFailureRun` ends in. -/
def clientFailureEnd : State :=
  { dom := sampleDom, listeners := [], pending := []
    trace := [.clientCreate { authorization := sampleToken }, .log sampleError] }

/-- The run used to illustrate a failed hosted fields creation. -/
def fieldsFailureRun : List Event :=
  [] ++ .clientCb .null sampleClient ::
    ([.submit 0] ++ .hostedFieldsCb sampleError .undefined :: [.submit 1])

/-- The state `fieldsFailureRun` ends in. -/
def fieldsFailureEnd : State :=
  { dom := sampleDom, listeners := [], pending := []
    trace := [.clientCreate { authorization := sampleToken },
      .hostedFieldsCreate (hostedFieldsConfig sampleClient),
      .log (.str "hostedFieldsErr"), .log sampleError] }

/-- A run in which setup succeeds and the form is then submitted once. -/
def setupSuccessRun : List Event :=
  [.submit 0] ++ .clientCb .null sampleClient ::
    ([] ++ .hostedFieldsCb .undefined sampleFields :: [.submit 1])

/-- The state `setupSuccessRun` ends in. -/
def setupSuccessEnd : State :=
  { dom := { submit := some false, form := true, nonceInput := some "" }
    listeners := [sampleFields]
    pending := [.tokenize]
    trace := [.clientCreate { authorization := sampleToken },
      .hostedFieldsCreate (hostedFieldsConfig sampleClient),
      .log (.str "Enabling submit btn"), .removeAttribute "disabled",
      .addEventListener "submit" false, .preventDefault 1, .tokenize sampleFields] }

/-- A run in which setup succeeds and the form is submitted twice before any
tokenize callback is delivered. -/
def doubleSubmitRun : List Event :=
  [.clientCb .null sampleClient, .hostedFieldsCb .undefined sampleFields, .submit 1, .submit 2]

/-- The state `doubleSubmitRun` ends in. -/
def doubleSubmitEnd : State :=
  { dom := { submit := some false, form := true, nonceInput := some "" }
    listeners := [sampleFields]
    pending := [.tokenize, .tokenize]
    trace := [.clientCreate { authorization := sampleToken },
      .hostedFieldsCreate (hostedFieldsConfig sampleClient),
      .log (.str "Enabling submit btn"), .removeAttribute "disabled",
      .addEventListener "submit" false, .preventDefault 1, .tokenize sampleFields,
      .preventDefault 2, .tokenize sampleFields] }

/-- The state after the tokenization requested in `setupSuccessEnd` failed. -/
def retryFailed : State :=
  { setupSuccessEnd with
    pending := []
    trace := setupSuccessEnd.trace ++ [.log (.str "tokenizeErr"), .log sampleError] }

/-- The state after the form was submitted again from `retryFailed`. -/
def retrySubmitted : State :=
  { retryFailed with
    pending := [.tokenize]
    trace := retryFailed.trace ++ [.preventDefault 2, .tokenize sampleFields] }

/-- The state after the second tokenization succeeded with `samplePayload`. -/
def retryDone : State :=
  { retrySubmitted with
    dom := { submit := some false, form := true, nonceInput := some "fake-nonce-123" }
    pending := []
    trace := retrySubmitted.trace ++
      [.setValue nonceSelector "fake-nonce-123", .log (.str "submitting form"), .formSubmit] }

/-! ## Basic facts -/

@[simp] theorem emit_dom (s : State) (e : Effect) : (s.emit e).dom = s.dom := rfl

@[simp] theorem emit_listeners (s : State) (e : Effect) :
    (s.emit e).listeners = s.listeners := rfl

@[simp] theorem emit_pending (s : State) (e : Effect) : (s.emit e).pending = s.pending := rfl

@[simp] theorem emit_trace (s : State) (e : Effect) : (s.emit e).trace = s.trace ++ [e] := rfl

theorem tokenizeCallback_err (e p : JSVal) (s : State) (he : e.truthy = true) :
    tokenizeCallback e p s = (s.emit (.log (.str "tokenizeErr"))).emit (.log e) := by
  simp [tokenizeCallback, he]

theorem hostedFieldsCallback_err (e i : JSVal) (s : State) (he : e.truthy = true) :
    hostedFieldsCallback e i s = (s.emit (.log (.str "hostedFieldsErr"))).emit (.log e) := by
  simp [hostedFieldsCallback, he]

theorem clientCallback_err (e i : JSVal) (s : State) (he : e.truthy = true) :
    clientCallback e i s = s.emit (.log e) := by
  simp [clientCallback, he]

theorem tokenizeCallback_ok (e : JSVal) (id : Nat) (n : String) (t : Bool) (s : State)
    (v0 : String) (he : e.truthy = false) (hn : s.dom.nonceInput = some v0)
    (hf : s.dom.form = true) :
    tokenizeCallback e (.obj id (.str n) t) s =
      { s with
        dom := { s.dom with nonceInput := some n }
        trace := s.trace ++
          [.setValue nonceSelector n, .log (.str "submitting form"), .formSubmit] } := by
  simp [tokenizeCallback, he, hn, hf, JSVal.getNonce, JSVal.toDOMString, State.emit]

/-! ## Listeners and dispatch -/

theorem submitListener_trace (hf : JSVal) (ev : Nat) (s : State) :
    (submitListener hf ev s).trace =
      s.trace ++ [.preventDefault ev, if hf.hasTokenize then .tokenize hf else .typeError] := by
  unfold submitListener
  split <;> simp [*]

@[simp] theorem submitListener_dom (hf : JSVal) (ev : Nat) (s : State) :
    (submitListener hf ev s).dom = s.dom := by
  unfold submitListener
  split <;> simp

@[simp] theorem submitListener_listeners (hf : JSVal) (ev : Nat) (s : State) :
    (submitListener hf ev s).listeners = s.listeners := by
  unfold submitListener
  split <;> simp

theorem submitListener_pending (hf : JSVal) (ev : Nat) (s : State) :
    (submitListener hf ev s).pending =
      s.pending ++ (if hf.hasTokenize then [.tokenize] else []) := by
  unfold submitListener
  split <;> simp [*]

@[simp] theorem dispatchSubmit_dom (ev : Nat) (ls : List JSVal) (s : State) :
    (dispatchSubmit ev ls s).dom = s.dom := by
  induction ls generalizing s with
  | nil => rfl
  | cons l ls ih => simp [dispatchSubmit, ih]

@[simp] theorem dispatchSubmit_listeners (ev : Nat) (ls : List JSVal) (s : State) :
    (dispatchSubmit ev ls s).listeners = s.listeners := by
  induction ls generalizing s with
  | nil => rfl
  | cons l ls ih => simp [dispatchSubmit, ih]

theorem dispatchSubmit_filter (q : Effect → Bool) (ev : Nat) (ls : List JSVal) (s : State)
    (hprev : ∀ n, q (.preventDefault n) = false) (htok : ∀ i, q (.tokenize i) = false)
    (herr : q .typeError = false) :
    (dispatchSubmit ev ls s).trace.filter q = s.trace.filter q := by
  induction ls generalizing s with
  | nil => rfl
  | cons l ls ih =>
    simp only [dispatchSubmit, ih, submitListener_trace, List.filter_append]
    split <;> simp [List.filter, hprev, htok, herr]

theorem dispatchSubmit_pending_mem (ev : Nat) (ls : List JSVal) (s : State) (c : SdkCall)
    (hc : c ∈ (dispatchSubmit ev ls s).pending) : c ∈ s.pending ∨ c = .tokenize := by
  induction ls generalizing s with
  | nil => exact Or.inl hc
  | cons l ls ih =>
    rcases ih _ hc with h | h
    · rw [submitListener_pending] at h
      rcases List.mem_append.mp h with h | h
      · exact Or.inl h
      · right
        split at h <;> simp_all
    · exact Or.inr h

/-! ## What each callback leaves alone -/

@[simp] theorem tokenizeCallback_listeners (e p : JSVal) (s : State) :
    (tokenizeCallback e p s).listeners = s.listeners := by
  unfold tokenizeCallback
  by_cases he : e.truthy = true
  · simp [he]
  · cases hn : s.dom.nonceInput <;> cases hp : p.getNonce <;> cases hf : s.dom.form <;>
      simp [he, hn, hp, hf]

@[simp] theorem tokenizeCallback_pending (e p : JSVal) (s : State) :
    (tokenizeCallback e p s).pending = s.pending := by
  unfold tokenizeCallback
  by_cases he : e.truthy = true
  · simp [he]
  · cases hn : s.dom.nonceInput <;> cases hp : p.getNonce <;> cases hf : s.dom.form <;>
      simp [he, hn, hp, hf]

@[simp] theorem tokenizeCallback_submit (e p : JSVal) (s : State) :
    (tokenizeCallback e p s).dom.submit = s.dom.submit := by
  unfold tokenizeCallback
  by_cases he : e.truthy = true
  · simp [he]
  · cases hn : s.dom.nonceInput <;> cases hp : p.getNonce <;> cases hf : s.dom.form <;>
      simp [he, hn, hp, hf]

@[simp] theorem tokenizeCallback_form (e p : JSVal) (s : State) :
    (tokenizeCallback e p s).dom.form = s.dom.form := by
  unfold tokenizeCallback
  by_cases he : e.truthy = true
  · simp [he]
  · cases hn : s.dom.nonceInput <;> cases hp : p.getNonce <;> cases hf : s.dom.form <;>
      simp [he, hn, hp, hf]

theorem tokenizeCallback_nonce_isSome (e p : JSVal) (s : State)
    (h : s.dom.nonceInput.isSome = true) :
    (tokenizeCallback e p s).dom.nonceInput.isSome = true := by
  unfold tokenizeCallback
  by_cases he : e.truthy = true
  · simp [he, h]
  · cases hn : s.dom.nonceInput <;> cases hp : p.getNonce <;> cases hf : s.dom.form <;>
      simp [he, hn, hp, hf] at h ⊢

theorem tokenizeCallback_filter (q : Effect → Bool) (e p : JSVal) (s : State)
    (hlog : ∀ v, q (.log v) = false) (hset : ∀ a b, q (.setValue a b) = false)
    (hsub : q .formSubmit = false) (herr : q .typeError = false) :
    (tokenizeCallback e p s).trace.filter q = s.trace.filter q := by
  unfold tokenizeCallback
  by_cases he : e.truthy = true
  · simp [he, List.filter_append, List.filter, hlog]
  · cases hn : s.dom.nonceInput <;> cases hp : p.getNonce <;> cases hf : s.dom.form <;>
      simp [he, hn, hp, hf, List.filter_append, List.filter, hlog, hset, hsub, herr]

theorem hostedFieldsCallback_pending (e i : JSVal) (s : State) :
    (hostedFieldsCallback e i s).pending = s.pending := by
  unfold hostedFieldsCallback
  by_cases he : e.truthy = true
  · simp [he]
  · cases hs : s.dom.submit <;> cases hf : s.dom.form <;> simp [he, hs, hf, State.emit]

theorem hostedFieldsCallback_filter (q : Effect → Bool) (e i : JSVal) (s : State)
    (hlog : ∀ v, q (.log v) = false) (hrem : ∀ a, q (.removeAttribute a) = false)
    (hadd : ∀ a b, q (.addEventListener a b) = false) (herr : q .typeError = false) :
    (hostedFieldsCallback e i s).trace.filter q = s.trace.filter q := by
  unfold hostedFieldsCallback
  by_cases he : e.truthy = true
  · simp [he, List.filter_append, List.filter, hlog]
  · cases hs : s.dom.submit <;> cases hf : s.dom.form <;>
      simp [he, hs, hf, State.emit, List.filter_append, List.filter, hlog, hrem, hadd, herr]

theorem hostedFieldsCallback_listeners_length (e i : JSVal) (s : State) :
    (hostedFieldsCallback e i s).listeners.length ≤ s.listeners.length + 1 := by
  unfold hostedFieldsCallback
  by_cases he : e.truthy = true
  · simp [he]
  · cases hs : s.dom.submit <;> cases hf : s.dom.form <;> simp [he, hs, hf, State.emit]

/-! ## Steps and runs -/

theorem exec_append (s : State) (es fs : List Event) :
    exec s (es ++ fs) = (exec s es).bind (fun t => exec t fs) := by
  induction es generalizing s with
  | nil => rfl
  | cons e es ih =>
    simp only [List.cons_append, exec]
    split
    · exact ih _
    · rfl

theorem exec_cons_some {s t : State} {e : Event} {es : List Event}
    (h : exec s (e :: es) = some t) : enabled s e = true ∧ exec (step s e) es = some t := by
  simp only [exec] at h
  split at h
  · exact ⟨by assumption, h⟩
  · cases h

theorem exec_split {s t : State} {es : List Event} {e : Event} {fs : List Event}
    (h : exec s (es ++ e :: fs) = some t) :
    ∃ u, exec s es = some u ∧ enabled u e = true ∧ exec (step u e) fs = some t := by
  rw [exec_append] at h
  cases hu : exec s es with
  | none => simp [hu] at h
  | some u =>
    simp only [hu, Option.bind] at h
    exact ⟨u, rfl, exec_cons_some h⟩

/-- With no listener and no call in flight nothing can happen any more. -/
theorem exec_inert {s t : State} {es : List Event} (hl : s.listeners = [])
    (hp : s.pending = []) (h : exec s es = some t) : t = s := by
  induction es with
  | nil => simpa [exec] using h.symm
  | cons e es ih =>
    obtain ⟨hen, hex⟩ := exec_cons_some h
    cases e with
    | clientCb a b => simp [enabled, hp] at hen
    | hostedFieldsCb a b => simp [enabled, hp] at hen
    | tokenizeCb a b => simp [enabled, hp] at hen
    | submit ev =>
      have : step s (.submit ev) = s := by simp [step, hl, dispatchSubmit]
      rw [this] at hex
      exact ih hex

theorem Frame.refl (s : State) (h : NoSetup s) : Frame s s :=
  ⟨rfl, rfl, rfl, rfl, id, h⟩

theorem Frame.trans {s t u : State} (h1 : Frame s t) (h2 : Frame t u) : Frame s u :=
  ⟨h2.listeners.trans h1.listeners, h2.submit.trans h1.submit, h2.form.trans h1.form,
    h2.setup.trans h1.setup, fun h => h2.nonce (h1.nonce h), h2.noSetup⟩

theorem step_frame {s : State} {e : Event} (hs : NoSetup s) (hen : enabled s e = true) :
    Frame s (step s e) := by
  cases e with
  | clientCb a b =>
    have := hs _ (by simpa [enabled] using hen)
    cases this
  | hostedFieldsCb a b =>
    have := hs _ (by simpa [enabled] using hen)
    cases this
  | tokenizeCb a b =>
    refine ⟨by simp [step], by simp [step], by simp [step], ?_, ?_, ?_⟩
    · simp only [step]
      exact tokenizeCallback_filter _ _ _ _ (fun _ => rfl) (fun _ _ => rfl) rfl rfl
    · intro h
      exact tokenizeCallback_nonce_isSome _ _ _ h
    · intro c hc
      simp only [step, tokenizeCallback_pending] at hc
      exact hs c (List.mem_of_mem_erase hc)
  | submit ev =>
    refine ⟨by simp [step], by simp [step], by simp [step],
      dispatchSubmit_filter _ _ _ _ (fun _ => rfl) (fun _ => rfl) rfl, by simp [step], ?_⟩
    intro c hc
    rcases dispatchSubmit_pending_mem _ _ _ _ hc with h | h
    · exact hs c h
    · exact h

theorem exec_frame {s t : State} {es : List Event} (hs : NoSetup s)
    (h : exec s es = some t) : Frame s t := by
  induction es generalizing s with
  | nil =>
    have : t = s := by simpa [exec] using h.symm
    subst this
    exact Frame.refl _ hs
  | cons e es ih =>
    obtain ⟨hen, hex⟩ := exec_cons_some h
    have hf := step_frame hs hen
    exact hf.trans (ih hf.noSetup hex)

theorem step_main_submit (dom : Dom) (token : JSVal) (ev : Nat) :
    step (main dom token) (.submit ev) = main dom token := rfl

theorem step_main_clientCb_err (dom : Dom) (token e ci : JSVal) (he : e.truthy = true) :
    step (main dom token) (.clientCb e ci) =
      { dom := dom, listeners := [], pending := [],
        trace := [.clientCreate { authorization := token }, .log e] } := by
  simp [step, main, clientCallback, he, State.emit]

theorem step_main_clientCb_ok (dom : Dom) (token e ci : JSVal) (he : e.truthy = false) :
    step (main dom token) (.clientCb e ci) = fieldsRequested dom token ci := by
  simp [step, main, clientCallback, he, State.emit, fieldsRequested]

theorem step_fieldsRequested_submit (dom : Dom) (token ci : JSVal) (ev : Nat) :
    step (fieldsRequested dom token ci) (.submit ev) = fieldsRequested dom token ci := rfl

theorem step_fieldsRequested_err (dom : Dom) (token ci e hf : JSVal) (he : e.truthy = true) :
    step (fieldsRequested dom token ci) (.hostedFieldsCb e hf) =
      { dom := dom, listeners := [], pending := [],
        trace := [.clientCreate { authorization := token },
          .hostedFieldsCreate (hostedFieldsConfig ci),
          .log (.str "hostedFieldsErr"), .log e] } := by
  simp [step, fieldsRequested, hostedFieldsCallback, he, State.emit]

theorem step_fieldsRequested_ok (dom : Dom) (token ci e hf : JSVal) (d : Bool)
    (he : e.truthy = false) (hs : dom.submit = some d) (hform : dom.form = true) :
    step (fieldsRequested dom token ci) (.hostedFieldsCb e hf) =
      { dom := { dom with submit := some false }, listeners := [hf], pending := [],
        trace := [.clientCreate { authorization := token },
          .hostedFieldsCreate (hostedFieldsConfig ci),
          .log (.str "Enabling submit btn"), .removeAttribute "disabled",
          .addEventListener "submit" false] } := by
  simp [step, fieldsRequested, hostedFieldsCallback, he, hs, hform, State.emit]

/-- From the state in which the hosted fields were requested, a run either
stays there or has answered the request. -/
theorem exec_fieldsRequested {dom : Dom} {token ci : JSVal} {es : List Event} {s : State}
    (h : exec (fieldsRequested dom token ci) es = some s) :
    s = fieldsRequested dom token ci ∨ (NoSetup s ∧ s.listeners.length ≤ 1) := by
  induction es with
  | nil => exact Or.inl (by simpa [exec] using h.symm)
  | cons e es ih =>
    obtain ⟨hen, hex⟩ := exec_cons_some h
    cases e with
    | clientCb a b => simp [enabled, fieldsRequested] at hen
    | tokenizeCb a b => simp [enabled, fieldsRequested] at hen
    | submit ev =>
      rw [step_fieldsRequested_submit] at hex
      exact ih hex
    | hostedFieldsCb a b =>
      right
      have hns : NoSetup (step (fieldsRequested dom token ci) (.hostedFieldsCb a b)) := by
        intro c hc
        simp [step, hostedFieldsCallback_pending, fieldsRequested] at hc
      have hf := exec_frame hns hex
      refine ⟨hf.noSetup, ?_⟩
      rw [hf.listeners]
      have := hostedFieldsCallback_listeners_length a b
        { fieldsRequested dom token ci with
          pending := (fieldsRequested dom token ci).pending.erase .hostedFieldsCreate }
      simpa [step, fieldsRequested] using this

/-- Every run of the script is in one of three situations: the client was
requested and nothing else happened; the hosted fields were requested and
nothing else happened; or no setup call is in flight any more. -/
theorem exec_main {dom : Dom} {token : JSVal} {es : List Event} {s : State}
    (h : exec (main dom token) es = some s) :
    s = main dom token ∨ (∃ ci, s = fieldsRequested dom token ci) ∨
      (NoSetup s ∧ s.listeners.length ≤ 1) := by
  induction es with
  | nil => exact Or.inl (by simpa [exec] using h.symm)
  | cons e es ih =>
    obtain ⟨hen, hex⟩ := exec_cons_some h
    cases e with
    | hostedFieldsCb a b => simp [enabled, main] at hen
    | tokenizeCb a b => simp [enabled, main] at hen
    | submit ev =>
      rw [step_main_submit] at hex
      exact ih hex
    | clientCb a b =>
      right
      by_cases ha : a.truthy = true
      · rw [step_main_clientCb_err dom token a b ha] at hex
        have := exec_inert rfl rfl hex
        subst this
        right
        exact ⟨by intro c hc; simp at hc, by simp⟩
      · rw [step_main_clientCb_ok dom token a b (by simpa using ha)] at hex
        rcases exec_fieldsRequested hex with h1 | h1
        · exact Or.inl ⟨b, h1⟩
        · exact Or.inr h1

/-- A client callback can only be delivered in the initial state. -/
theorem state_before_clientCb {dom : Dom} {token e ci : JSVal} {es : List Event} {s : State}
    (h : exec (main dom token) es = some s) (hen : enabled s (.clientCb e ci) = true) :
    s = main dom token := by
  rcases exec_main h with h1 | ⟨c, h1⟩ | ⟨h1, _⟩
  · exact h1
  · subst h1
    simp [enabled, fieldsRequested] at hen
  · have := h1 _ (by simpa [enabled] using hen)
    cases this

/-- A hosted fields callback can only be delivered while the request made by
the client callback is the single thing that happened since. -/
theorem state_before_hostedFieldsCb {dom : Dom} {token ci e hf : JSVal} {es : List Event}
    {s : State} (h : exec (fieldsRequested dom token ci) es = some s)
    (hen : enabled s (.hostedFieldsCb e hf) = true) : s = fieldsRequested dom token ci := by
  rcases exec_fieldsRequested h with h1 | ⟨h1, _⟩
  · exact h1
  · have := h1 _ (by simpa [enabled] using hen)
    cases this

theorem step_submit_single {s : State} {hf : JSVal} (ev : Nat) (h : s.listeners = [hf]) :
    step s (.submit ev) = submitListener hf ev s := by
  simp [step, h, dispatchSubmit]

theorem step_tokenizeCb (s : State) (e p : JSVal) :
    step s (.tokenizeCb e p) =
      tokenizeCallback e p { s with pending := s.pending.erase .tokenize } := rfl

theorem exec_single {s : State} {e : Event} (h : enabled s e = true) :
    exec s [e] = some (step s e) := by
  simp [exec, h]

theorem clientCallback_filter (q : Effect → Bool) (e i : JSVal) (s : State)
    (hlog : ∀ v, q (.log v) = false) (hcre : ∀ c, q (.hostedFieldsCreate c) = false) :
    (clientCallback e i s).trace.filter q = s.trace.filter q := by
  unfold clientCallback
  by_cases he : e.truthy = true <;> simp [he, List.filter_append, List.filter, hlog, hcre]

/-- No step issues a call of `braintree.client.create`. -/
theorem step_clientCreate (s : State) (e : Event) :
    (step s e).trace.filter Effect.isClientCreate = s.trace.filter Effect.isClientCreate := by
  cases e with
  | clientCb a b => exact clientCallback_filter _ _ _ _ (fun _ => rfl) (fun _ => rfl)
  | hostedFieldsCb a b =>
    exact hostedFieldsCallback_filter _ _ _ _ (fun _ => rfl) (fun _ => rfl) (fun _ _ => rfl) rfl
  | tokenizeCb a b =>
    exact tokenizeCallback_filter _ _ _ _ (fun _ => rfl) (fun _ _ => rfl) rfl rfl
  | submit ev => exact dispatchSubmit_filter _ _ _ _ (fun _ => rfl) (fun _ => rfl) rfl

theorem exec_clientCreate {s t : State} {es : List Event} (h : exec s es = some t) :
    t.trace.filter Effect.isClientCreate = s.trace.filter Effect.isClientCreate := by
  induction es generalizing s with
  | nil =>
    have : t = s := by simpa [exec] using h.symm
    rw [this]
  | cons e es ih =>
    obtain ⟨_, hex⟩ := exec_cons_some h
    rw [ih hex, step_clientCreate]

/-- Once the client callback was delivered, no step issues a call of
`braintree.hostedFields.create`. -/
theorem step_hostedFieldsCreate {s : State} {e : Event} (hnc : SdkCall.clientCreate ∉ s.pending)
    (hen : enabled s e = true) :
    (step s e).trace.filter Effect.isHostedFieldsCreate =
        s.trace.filter Effect.isHostedFieldsCreate ∧
      SdkCall.clientCreate ∉ (step s e).pending := by
  cases e with
  | clientCb a b => exact absurd (by simpa [enabled] using hen) hnc
  | hostedFieldsCb a b =>
    refine ⟨hostedFieldsCallback_filter _ _ _ _ (fun _ => rfl) (fun _ => rfl)
      (fun _ _ => rfl) rfl, ?_⟩
    intro hc
    simp only [step, hostedFieldsCallback_pending] at hc
    exact hnc (List.mem_of_mem_erase hc)
  | tokenizeCb a b =>
    refine ⟨tokenizeCallback_filter _ _ _ _ (fun _ => rfl) (fun _ _ => rfl) rfl rfl, ?_⟩
    intro hc
    simp only [step, tokenizeCallback_pending] at hc
    exact hnc (List.mem_of_mem_erase hc)
  | submit ev =>
    refine ⟨dispatchSubmit_filter _ _ _ _ (fun _ => rfl) (fun _ => rfl) rfl, ?_⟩
    intro hc
    rcases dispatchSubmit_pending_mem _ _ _ _ hc with h | h
    · exact hnc h
    · cases h

theorem exec_hostedFieldsCreate {s t : State} {es : List Event}
    (hnc : SdkCall.clientCreate ∉ s.pending) (h : exec s es = some t) :
    t.trace.filter Effect.isHostedFieldsCreate =
      s.trace.filter Effect.isHostedFieldsCreate := by
  induction es generalizing s with
  | nil =>
    have : t = s := by simpa [exec] using h.symm
    rw [this]
  | cons e es ih =>
    obtain ⟨hen, hex⟩ := exec_cons_some h
    obtain ⟨h1, h2⟩ := step_hostedFieldsCreate hnc hen
    rw [ih h2 hex, h1]

/-- The sample retry, step by step: failure, second submit, success. -/
theorem exec_retry_sample :
    exec setupSuccessEnd [.tokenizeCb sampleError .undefined] = some retryFailed ∧
      exec retryFailed [.submit 2] = some retrySubmitted ∧
      exec retrySubmitted [.tokenizeCb .null samplePayload] = some retryDone :=
  ⟨rfl, rfl, rfl⟩

/-! ## The tokenize callback -/

/-- C1: when the tokenize callback runs with a falsy error and a payload whose
nonce is the string `n`, on a page that has the hidden field and the form, the
field's value becomes exactly `n`, and the callback's effects are the write of
the value, one log entry and one `form.submit()`, in this order. -/
theorem tokenize_success_sets_nonce_then_submits (e : JSVal) (id : Nat) (n : String)
    (t : Bool) (s : State) (v0 : String) (he : e.truthy = false)
    (hn : s.dom.nonceInput = some v0) (hf : s.dom.form = true) :
    (tokenizeCallback e (.obj id (.str n) t) s).dom.nonceInput = some n ∧
      (tokenizeCallback e (.obj id (.str n) t) s).trace =
        s.trace ++ [.setValue nonceSelector n, .log (.str "submitting form"), .formSubmit] ∧
      (tokenizeCallback e (.obj id (.str n) t) s).trace.count .formSubmit =
        s.trace.count .formSubmit + 1 := by
  rw [tokenizeCallback_ok e id n t s v0 he hn hf]
  refine ⟨rfl, rfl, ?_⟩
  simp [List.count_cons]

theorem tokenize_success_sets_nonce_then_submits_witness :
    (tokenizeCallback .undefined samplePayload sampleTokenizing).dom.nonceInput
        = some "fake-nonce-123" ∧
      (tokenizeCallback .undefined samplePayload sampleTokenizing).trace =
        sampleTokenizing.trace ++
          [.setValue nonceSelector "fake-nonce-123", .log (.str "submitting form"),
            .formSubmit] ∧
      (tokenizeCallback .undefined samplePayload sampleTokenizing).trace.count .formSubmit =
        sampleTokenizing.trace.count .formSubmit + 1 :=
  tokenize_success_sets_nonce_then_submits .undefined 3 "fake-nonce-123" false
    sampleTokenizing "" rfl rfl rfl

/-- C2: when the tokenize callback runs with a truthy error, whatever the
payload, the hidden field keeps its value, the callback only writes two log
entries, and `form.submit()` does not occur among its effects. -/
theorem tokenize_failure_leaves_nonce_and_form (e p : JSVal) (s : State)
    (he : e.truthy = true) :
    (tokenizeCallback e p s).dom.nonceInput = s.dom.nonceInput ∧
      (tokenizeCallback e p s).trace =
        s.trace ++ [.log (.str "tokenizeErr"), .log e] ∧
      (tokenizeCallback e p s).trace.count .formSubmit = s.trace.count .formSubmit := by
  rw [tokenizeCallback_err e p s he]
  simp [List.count_cons]

theorem tokenize_failure_leaves_nonce_and_form_witness :
    (tokenizeCallback sampleError samplePayload sampleTokenizing).dom.nonceInput
        = sampleTokenizing.dom.nonceInput ∧
      (tokenizeCallback sampleError samplePayload sampleTokenizing).trace =
        sampleTokenizing.trace ++ [.log (.str "tokenizeErr"), .log sampleError] ∧
      (tokenizeCallback sampleError samplePayload sampleTokenizing).trace.count .formSubmit
        = sampleTokenizing.trace.count .formSubmit :=
  tokenize_failure_leaves_nonce_and_form sampleError samplePayload sampleTokenizing rfl

/-- C8: each of the three callbacks, run with a truthy error from a given
state, yields the same state (DOM, listeners, calls in flight and effect trace)
for any two second arguments. -/
theorem callbacks_ignore_second_argument_on_error (e p1 p2 : JSVal) (s : State)
    (he : e.truthy = true) :
    clientCallback e p1 s = clientCallback e p2 s ∧
      hostedFieldsCallback e p1 s = hostedFieldsCallback e p2 s ∧
      tokenizeCallback e p1 s = tokenizeCallback e p2 s := by
  refine ⟨?_, ?_, ?_⟩
  · rw [clientCallback_err e p1 s he, clientCallback_err e p2 s he]
  · rw [hostedFieldsCallback_err e p1 s he, hostedFieldsCallback_err e p2 s he]
  · rw [tokenizeCallback_err e p1 s he, tokenizeCallback_err e p2 s he]

theorem callbacks_ignore_second_argument_on_error_witness :
    clientCallback sampleError sampleClient sampleTokenizing
        = clientCallback sampleError .undefined sampleTokenizing ∧
      hostedFieldsCallback sampleError sampleClient sampleTokenizing
        = hostedFieldsCallback sampleError .undefined sampleTokenizing ∧
      tokenizeCallback sampleError sampleClient sampleTokenizing
        = tokenizeCallback sampleError .undefined sampleTokenizing :=
  callbacks_ignore_second_argument_on_error sampleError sampleClient .undefined
    sampleTokenizing rfl

/-! ## Setup -/

/-- C3: when the client callback is delivered with a truthy error, then
whatever events follow, the submit control keeps the `disabled` state it had,
no listener is registered, and the trace of the whole run consists of the call
of `client.create` and the log entry: no `removeAttribute`, no
`hostedFields.create`, no `addEventListener`. -/
theorem client_failure_aborts_setup (dom : Dom) (token e ci : JSVal) (pre post : List Event)
    (s : State) (he : e.truthy = true)
    (h : exec (main dom token) (pre ++ .clientCb e ci :: post) = some s) :
    s.dom.submit = dom.submit ∧ s.listeners = [] ∧
      s.trace = [.clientCreate { authorization := token }, .log e] := by
  obtain ⟨u, hu, hen, hex⟩ := exec_split h
  have := state_before_clientCb hu hen
  subst this
  rw [step_main_clientCb_err dom token e ci he] at hex
  have := exec_inert rfl rfl hex
  subst this
  exact ⟨rfl, rfl, rfl⟩

theorem client_failure_aborts_setup_witness :
    exec (main sampleDom sampleToken) clientFailureRun = some clientFailureEnd ∧
      clientFailureEnd.dom.submit = sampleDom.submit ∧ clientFailureEnd.listeners = [] ∧
      clientFailureEnd.trace = [.clientCreate { authorization := sampleToken }, .log sampleError] :=
  ⟨rfl, client_failure_aborts_setup sampleDom sampleToken sampleError .undefined [.submit 0]
    [.submit 1, .submit 2] clientFailureEnd rfl rfl⟩

/-- C4: when the client callback succeeded and the hosted fields callback is
delivered with a truthy error, then whatever events follow, the submit control
keeps the `disabled` state it had, no listener is registered, and the trace of
the whole run holds the two creation calls and two log entries only. -/
theorem fields_failure_aborts_setup (dom : Dom) (token e1 ci e2 hf : JSVal)
    (pre mid post : List Event) (s : State) (h1 : e1.truthy = false) (h2 : e2.truthy = true)
    (h : exec (main dom token)
      (pre ++ .clientCb e1 ci :: (mid ++ .hostedFieldsCb e2 hf :: post)) = some s) :
    s.dom.submit = dom.submit ∧ s.listeners = [] ∧
      s.trace = [.clientCreate { authorization := token },
        .hostedFieldsCreate (hostedFieldsConfig ci),
        .log (.str "hostedFieldsErr"), .log e2] := by
  obtain ⟨u, hu, hen, hex⟩ := exec_split h
  have := state_before_clientCb hu hen
  subst this
  rw [step_main_clientCb_ok dom token e1 ci h1] at hex
  obtain ⟨v, hv, hen2, hex2⟩ := exec_split hex
  have := state_before_hostedFieldsCb hv hen2
  subst this
  rw [step_fieldsRequested_err dom token ci e2 hf h2] at hex2
  have := exec_inert rfl rfl hex2
  subst this
  exact ⟨rfl, rfl, rfl⟩

theorem fields_failure_aborts_setup_witness :
    exec (main sampleDom sampleToken) fieldsFailureRun = some fieldsFailureEnd ∧
      fieldsFailureEnd.dom.submit = sampleDom.submit ∧ fieldsFailureEnd.listeners = [] ∧
      fieldsFailureEnd.trace = [.clientCreate { authorization := sampleToken },
        .hostedFieldsCreate (hostedFieldsConfig sampleClient),
        .log (.str "hostedFieldsErr"), .log sampleError] :=
  ⟨rfl, fields_failure_aborts_setup sampleDom sampleToken .null sampleClient sampleError
    .undefined [] [.submit 0] [.submit 1] fieldsFailureEnd rfl rfl rfl⟩

/-- C5: on a page that has the submit control and the form, when the client
callback and the hosted fields callback are each delivered with a falsy error,
then whatever events come in between and after, the setup effects of the whole
run are the two creation calls, one `submit.removeAttribute('disabled')` and,
after it, one registration of a submit listener; that listener is the only one
on the form and the control is enabled. -/
theorem setup_success_enables_once (dom : Dom) (token e1 ci e2 hf : JSVal) (d : Bool)
    (pre mid post : List Event) (s : State) (h1 : e1.truthy = false) (h2 : e2.truthy = false)
    (hsub : dom.submit = some d) (hform : dom.form = true)
    (h : exec (main dom token)
      (pre ++ .clientCb e1 ci :: (mid ++ .hostedFieldsCb e2 hf :: post)) = some s) :
    s.trace.filter Effect.isSetup =
        [.clientCreate { authorization := token }, .hostedFieldsCreate (hostedFieldsConfig ci),
          .removeAttribute "disabled", .addEventListener "submit" false] ∧
      s.listeners = [hf] ∧ s.dom.submit = some false := by
  obtain ⟨u, hu, hen, hex⟩ := exec_split h
  have := state_before_clientCb hu hen
  subst this
  rw [step_main_clientCb_ok dom token e1 ci h1] at hex
  obtain ⟨v, hv, hen2, hex2⟩ := exec_split hex
  have := state_before_hostedFieldsCb hv hen2
  subst this
  rw [step_fieldsRequested_ok dom token ci e2 hf d h2 hsub hform] at hex2
  have hf := exec_frame (by intro c hc; simp at hc) hex2
  exact ⟨hf.setup.trans rfl, hf.listeners, hf.submit⟩

theorem setup_success_enables_once_witness :
    exec (main sampleDom sampleToken) setupSuccessRun = some setupSuccessEnd ∧
      setupSuccessEnd.trace.filter Effect.isSetup =
        [.clientCreate { authorization := sampleToken },
          .hostedFieldsCreate (hostedFieldsConfig sampleClient),
          .removeAttribute "disabled", .addEventListener "submit" false] ∧
      setupSuccessEnd.listeners = [sampleFields] ∧ setupSuccessEnd.dom.submit = some false :=
  ⟨rfl, setup_success_enables_once sampleDom sampleToken .null sampleClient .undefined
    sampleFields true [.submit 0] [] [.submit 1] setupSuccessEnd rfl rfl rfl rfl rfl⟩

/-! ## Submission -/

/-- C6: in every reachable state in which a submit listener is registered, a
submit event runs exactly that one listener, whose effects are one
`preventDefault` on this event followed by the tokenize request (or by the
`TypeError` of an instance without `tokenize`); and the tokenize callback,
whatever its arguments, adds no call of `preventDefault`. -/
theorem submit_prevents_default_once (dom : Dom) (token : JSVal) (es : List Event) (s : State)
    (ev : Nat) (h : exec (main dom token) es = some s) (hl : s.listeners ≠ []) :
    (∃ hf, s.listeners = [hf] ∧
        (step s (.submit ev)).trace =
          s.trace ++ [.preventDefault ev,
            if hf.hasTokenize then .tokenize hf else .typeError]) ∧
      ∀ e p t, (tokenizeCallback e p t).trace.filter Effect.isPreventDefault =
        t.trace.filter Effect.isPreventDefault := by
  refine ⟨?_, fun e p t =>
    tokenizeCallback_filter _ e p t (fun _ => rfl) (fun _ _ => rfl) rfl rfl⟩
  rcases exec_main h with h1 | ⟨c, h1⟩ | ⟨_, h1⟩
  · subst h1
    exact absurd rfl hl
  · subst h1
    exact absurd rfl hl
  · obtain ⟨hf, hs⟩ : ∃ hf, s.listeners = [hf] := by
      cases hs : s.listeners with
      | nil => exact absurd hs hl
      | cons a r =>
        cases r with
        | nil => exact ⟨a, rfl⟩
        | cons b r =>
          rw [hs] at h1
          simp at h1
    refine ⟨hf, hs, ?_⟩
    simp only [step, hs, dispatchSubmit]
    exact submitListener_trace hf ev s

theorem submit_prevents_default_once_witness :
    exec (main sampleDom sampleToken) setupSuccessRun = some setupSuccessEnd ∧
      setupSuccessEnd.listeners ≠ [] ∧
      (∃ hf, setupSuccessEnd.listeners = [hf] ∧
        (step setupSuccessEnd (.submit 7)).trace =
          setupSuccessEnd.trace ++ [.preventDefault 7,
            if hf.hasTokenize then .tokenize hf else .typeError]) ∧
      ∀ e p t, (tokenizeCallback e p t).trace.filter Effect.isPreventDefault =
        t.trace.filter Effect.isPreventDefault :=
  ⟨rfl, by decide, submit_prevents_default_once sampleDom sampleToken setupSuccessRun
    setupSuccessEnd 7 rfl (by decide)⟩

/-- C7 as stated fails: after a successful setup, two submit events delivered
before any tokenize callback leave two tokenize calls in flight. -/
theorem two_submits_two_tokenize_calls_in_flight :
    exec (main sampleDom sampleToken) doubleSubmitRun = some doubleSubmitEnd ∧
      doubleSubmitEnd.pending = [.tokenize, .tokenize] ∧ ¬ doubleSubmitEnd.pending.length ≤ 1 :=
  ⟨rfl, rfl, by decide⟩

/-- C7, amended: in every reachable state a setup call that awaits its callback
is the only call in flight (the client creation, or the hosted fields
creation), and otherwise only tokenize calls are in flight; these are not
debounced: a submit event delivered to the registered listener of an instance
that has `tokenize` puts one more tokenize call in flight. -/
theorem setup_calls_never_concurrent (dom : Dom) (token : JSVal) (es : List Event) (s : State)
    (h : exec (main dom token) es = some s) :
    (s.pending = [.clientCreate] ∨ s.pending = [.hostedFieldsCreate] ∨
        ∀ c ∈ s.pending, c = SdkCall.tokenize) ∧
      ∀ hf ev, s.listeners = [hf] → hf.hasTokenize = true →
        (step s (.submit ev)).pending = s.pending ++ [.tokenize] := by
  constructor
  · rcases exec_main h with h1 | ⟨c, h1⟩ | ⟨h1, _⟩
    · exact Or.inl (by rw [h1]; rfl)
    · exact Or.inr (Or.inl (by rw [h1]; rfl))
    · exact Or.inr (Or.inr h1)
  · intro hf ev hl ht
    simp only [step, hl, dispatchSubmit, submitListener_pending, ht, if_true]

theorem setup_calls_never_concurrent_witness :
    exec (main sampleDom sampleToken) setupSuccessRun = some setupSuccessEnd ∧
      (setupSuccessEnd.pending = [.clientCreate] ∨
        setupSuccessEnd.pending = [.hostedFieldsCreate] ∨
        ∀ c ∈ setupSuccessEnd.pending, c = SdkCall.tokenize) ∧
      ∀ hf ev, setupSuccessEnd.listeners = [hf] → hf.hasTokenize = true →
        (step setupSuccessEnd (.submit ev)).pending = setupSuccessEnd.pending ++ [.tokenize] :=
  ⟨rfl, setup_calls_never_concurrent sampleDom sampleToken setupSuccessRun setupSuccessEnd rfl⟩

/-- C9: on a page that fulfils the DOM contract, after both setup callbacks
succeeded (with an instance that has `tokenize`) and any further events, when a
tokenize callback is delivered with a truthy error, the submit control is
enabled and the listener is still the registered one; a submit event can then
be delivered and calls `preventDefault` and `tokenize`; and when that
tokenization succeeds with a payload whose nonce is `n`, the hidden field is
set to `n` and `form.submit()` is called. -/
theorem tokenize_failure_is_recoverable (dom : Dom) (token e1 ci e2 hf e3 p e4 : JSVal)
    (id : Nat) (n : String) (t d : Bool) (v0 : String) (pre mid post : List Event) (ev : Nat)
    (s0 : State) (h1 : e1.truthy = false) (h2 : e2.truthy = false) (h3 : e3.truthy = true)
    (h4 : e4.truthy = false) (hsub : dom.submit = some d) (hform : dom.form = true)
    (hnonce : dom.nonceInput = some v0) (htok : hf.hasTokenize = true)
    (h : exec (main dom token)
      (pre ++ .clientCb e1 ci :: (mid ++ .hostedFieldsCb e2 hf :: post)) = some s0)
    (hpend : enabled s0 (.tokenizeCb e3 p) = true) :
    ∃ s1 s2 s3,
      exec s0 [.tokenizeCb e3 p] = some s1 ∧
      s1.dom.submit = some false ∧ s1.listeners = [hf] ∧
      exec s1 [.submit ev] = some s2 ∧
      s2.trace = s1.trace ++ [.preventDefault ev, .tokenize hf] ∧
      exec s2 [.tokenizeCb e4 (.obj id (.str n) t)] = some s3 ∧
      s3.dom.nonceInput = some n ∧
      s3.trace = s2.trace ++
        [.setValue nonceSelector n, .log (.str "submitting form"), .formSubmit] := by
  obtain ⟨u, hu, hen, hex⟩ := exec_split h
  have := state_before_clientCb hu hen
  subst this
  rw [step_main_clientCb_ok dom token e1 ci h1] at hex
  obtain ⟨v, hv, hen2, hex2⟩ := exec_split hex
  have := state_before_hostedFieldsCb hv hen2
  subst this
  rw [step_fieldsRequested_ok dom token ci e2 hf d h2 hsub hform] at hex2
  have hfr := exec_frame (by intro c hc; simp at hc) hex2
  have hl0 : s0.listeners = [hf] := hfr.listeners
  have hs0 : s0.dom.submit = some false := hfr.submit
  have hf0 : s0.dom.form = true := hfr.form.trans hform
  have hn0 : s0.dom.nonceInput.isSome = true := hfr.nonce (by simp [hnonce])
  obtain ⟨w, hw⟩ := Option.isSome_iff_exists.mp hn0
  have hstep : step s0 (.tokenizeCb e3 p) =
      (({ s0 with pending := s0.pending.erase .tokenize }).emit
        (.log (.str "tokenizeErr"))).emit (.log e3) := by
    simp only [step]
    exact tokenizeCallback_err e3 p _ h3
  have hen1 : enabled (step s0 (.tokenizeCb e3 p)) (.submit ev) = true := by
    rw [hstep]
    simpa [enabled] using hf0
  have hl1 : (step s0 (.tokenizeCb e3 p)).listeners = [hf] := by
    rw [hstep]
    simpa using hl0
  have hsubmit := step_submit_single ev hl1
  have hen2 : enabled (step (step s0 (.tokenizeCb e3 p)) (.submit ev))
      (.tokenizeCb e4 (.obj id (.str n) t)) = true := by
    rw [hsubmit]
    simp [enabled, submitListener_pending, htok]
  have hfinal := tokenizeCallback_ok e4 id n t
    { step (step s0 (.tokenizeCb e3 p)) (.submit ev) with
      pending := (step (step s0 (.tokenizeCb e3 p)) (.submit ev)).pending.erase .tokenize }
    w h4 (by rw [hsubmit, hstep]; simpa using hw) (by rw [hsubmit, hstep]; simpa using hf0)
  refine ⟨_, _, _, exec_single hpend, ?_, hl1, exec_single hen1, ?_, exec_single hen2, ?_, ?_⟩
  · rw [hstep]
    simpa using hs0
  · rw [hsubmit, submitListener_trace]
    simp [htok]
  · rw [step_tokenizeCb, hfinal]
  · rw [step_tokenizeCb, hfinal]

theorem tokenize_failure_is_recoverable_witness :
    exec (main sampleDom sampleToken) setupSuccessRun = some setupSuccessEnd ∧
      enabled setupSuccessEnd (.tokenizeCb sampleError .undefined) = true ∧
      ∃ s1 s2 s3,
        exec setupSuccessEnd [.tokenizeCb sampleError .undefined] = some s1 ∧
        s1.dom.submit = some false ∧ s1.listeners = [sampleFields] ∧
        exec s1 [.submit 2] = some s2 ∧
        s2.trace = s1.trace ++ [.preventDefault 2, .tokenize sampleFields] ∧
        exec s2 [.tokenizeCb .null (.obj 3 (.str "fake-nonce-123") false)] = some s3 ∧
        s3.dom.nonceInput = some "fake-nonce-123" ∧
        s3.trace = s2.trace ++
          [.setValue nonceSelector "fake-nonce-123", .log (.str "submitting form"),
            .formSubmit] :=
  ⟨rfl, rfl, tokenize_failure_is_recoverable sampleDom sampleToken .null sampleClient
    .undefined sampleFields sampleError .undefined .null 3 "fake-nonce-123" false true ""
    [.submit 0] [] [.submit 1] 2 setupSuccessEnd rfl rfl rfl rfl rfl rfl rfl rfl rfl rfl⟩

/-! ## Configurations -/

/-- C10: in every run the only call of `client.create` is the one made with
`{authorization: token}`; and when the client callback is delivered with a
falsy error and the instance `ci`, then whatever events follow, the only call
of `hostedFields.create` in the whole run is the one whose configuration has
`ci` itself as `client`, the three fields `number`, `cvv` and `expirationDate`
with the selectors `#card-number`, `#cvv` and `#expiration-date` (each with a
placeholder string), and style rules keyed by `input`, `input.invalid` and
`input.valid`. -/
theorem sdk_calls_receive_configurations (dom : Dom) (token e ci : JSVal)
    (pre post : List Event) (s : State) (he : e.truthy = false)
    (h : exec (main dom token) (pre ++ .clientCb e ci :: post) = some s) :
    (∀ es t, exec (main dom token) es = some t →
        t.trace.filter Effect.isClientCreate = [.clientCreate { authorization := token }]) ∧
      s.trace.filter Effect.isHostedFieldsCreate =
        [.hostedFieldsCreate (hostedFieldsConfig ci)] ∧
      (hostedFieldsConfig ci).client = ci ∧
      (hostedFieldsConfig ci).fields.map (fun f => (f.1, f.2.selector)) =
        [("number", "#card-number"), ("cvv", "#cvv"), ("expirationDate", "#expiration-date")] ∧
      (hostedFieldsConfig ci).styles.map Prod.fst = ["input", "input.invalid", "input.valid"] := by
  refine ⟨fun es t ht => (exec_clientCreate ht).trans rfl, ?_, rfl, rfl, rfl⟩
  obtain ⟨u, hu, hen, hex⟩ := exec_split h
  have := state_before_clientCb hu hen
  subst this
  rw [step_main_clientCb_ok dom token e ci he] at hex
  exact (exec_hostedFieldsCreate (by simp [fieldsRequested]) hex).trans rfl

theorem sdk_calls_receive_configurations_witness :
    exec (main sampleDom sampleToken) setupSuccessRun = some setupSuccessEnd ∧
      (∀ es t, exec (main sampleDom sampleToken) es = some t →
        t.trace.filter Effect.isClientCreate =
          [.clientCreate { authorization := sampleToken }]) ∧
      setupSuccessEnd.trace.filter Effect.isHostedFieldsCreate =
        [.hostedFieldsCreate (hostedFieldsConfig sampleClient)] ∧
      (hostedFieldsConfig sampleClient).client = sampleClient ∧
      (hostedFieldsConfig sampleClient).fields.map (fun f => (f.1, f.2.selector)) =
        [("number", "#card-number"), ("cvv", "#cvv"), ("expirationDate", "#expiration-date")] ∧
      (hostedFieldsConfig sampleClient).styles.map Prod.fst =
        ["input", "input.invalid", "input.valid"] :=
  ⟨rfl, sdk_calls_receive_configurations sampleDom sampleToken .null sampleClient [.submit 0]
    [Event.hostedFieldsCb .undefined sampleFields, Event.submit 1] setupSuccessEnd rfl rfl⟩

end PaymentTestForm
